import Mathlib

/-!
Verification of the memegen renderer (`main.go`).

The repository ships two variants of the program, concatenated in
`main.go`:

* variant `V1`: the monolithic `main` (first half of the file), which
  computes an unclamped `startX`, merely warns when an outline draw pass
  fails, and treats a broken pipe during `png.Encode` as a non-fatal,
  reported condition;
* variant `V2`: the refactored `main`/`run` pair (second half), which
  clamps `startX` at 0, aborts on the first failing outline pass, and
  returns the broken-pipe write error (so the process exits 1).

Both variants are embedded below.  External effects (image decoding, font
parsing, glyph rasterisation, PNG encoding, file creation) are modelled by
an environment of oracles; the deterministic glue code between them — the
part the specification describes — is translated statement by statement
from the Go source.

Go semantics used by the embedding:

* `int` division truncates toward zero: `Int.tdiv`;
* `>>` on a signed integer (`fixed.Int26_6`) is an arithmetic shift,
  i.e. floor division by a power of two: `Int.fdiv _ 64` for `>> 6`;
* a `float64` → integer conversion truncates toward zero;
* runtime `float64` arithmetic rounds every operation to the nearest
  binary64 value, ties to even; this is modelled exactly by `fl64` below
  over an explicit fraction type `QR` (the values occurring in the
  program stay well inside the normal range, so overflow and subnormals
  do not arise);
* a Go *constant* expression such as `fontSize*dpi/72.0` is evaluated in
  exact (arbitrary-precision) arithmetic before conversion, hence is
  modelled by exact fraction arithmetic.
-/

namespace Memegen

set_option maxRecDepth 8000

/-! ## Exact fractions

An unreduced fraction of integers, with positive denominator by
construction at every use site.  (Mathlib's `ℚ` is not used because its
arithmetic is `@[irreducible]`, which blocks kernel evaluation in
`decide`.)  Equality of `QR` values is representation equality and is
never used to compare values arithmetically; all arithmetic facts go
through the integer-valued observations `QR.trunc` / `fl64`. -/

structure QR where
  n : Int
  d : Int
deriving DecidableEq, Repr

/-- Embed an integer as a fraction. -/
def QR.ofInt (i : Int) : QR := ⟨i, 1⟩

/-- Exact product of fractions. -/
def QR.mul (a b : QR) : QR := ⟨a.n * b.n, a.d * b.d⟩

/-- Exact quotient of fractions, keeping the denominator positive
(divisor nonzero at every use site). -/
def QR.div (a b : QR) : QR :=
  if 0 ≤ b.n then ⟨a.n * b.d, a.d * b.n⟩ else ⟨-(a.n * b.d), -(a.d * b.n)⟩

/-- Truncation toward zero, the semantics of Go's `float64` → integer
conversion. -/
def QR.trunc (q : QR) : Int := Int.tdiv q.n q.d

/-- The power `2 ^ k` as an integer, via kernel-accelerated `Nat` power. -/
def pow2Z (k : Nat) : Int := ((2 ^ k : Nat) : Int)

/-- Number of binary digits of `n`, computed with explicit fuel so that
the kernel can evaluate it (128 bits of fuel covers every number
appearing here). -/
def bitLenAux : Nat → Nat → Nat
  | 0, _ => 0
  | fuel + 1, n => if n = 0 then 0 else bitLenAux fuel (n / 2) + 1

/-- Number of binary digits of `n` (`bitLen 0 = 0`, and `2^(bitLen n - 1)
≤ n < 2^(bitLen n)` for `0 < n < 2^128`). -/
def bitLen (n : Nat) : Nat := bitLenAux 128 n

/-- Greatest `e` with `2 ^ e ≤ q`, for a positive fraction `q`. -/
def qrFloorLog2 (q : QR) : Int :=
  let a := bitLen q.n.toNat
  let b := bitLen q.d.toNat
  if q.d * pow2Z a ≤ q.n * pow2Z b then (a : Int) - (b : Int) else (a : Int) - (b : Int) - 1

/-- Scale a fraction by `2 ^ k` (integer `k`), exactly. -/
def qrScale (s : QR) (k : Int) : QR :=
  if 0 ≤ k then ⟨s.n * pow2Z k.toNat, s.d⟩ else ⟨s.n, s.d * pow2Z (-k).toNat⟩

/-- The dyadic fraction `m · 2 ^ k`. -/
def qrDyadic (m k : Int) : QR :=
  if 0 ≤ k then ⟨m * pow2Z k.toNat, 1⟩ else ⟨m, pow2Z (-k).toNat⟩

/-- Round a fraction (positive denominator) to the nearest integer, ties
to even. -/
def rne (s : QR) : Int :=
  let n := Int.fdiv s.n s.d
  let r2 := 2 * (s.n - n * s.d)
  if r2 < s.d then n
  else if s.d < r2 then n + 1
  else if Int.emod n 2 = 0 then n else n + 1

/-- Round a fraction to the nearest binary64 value (53-bit significand,
round to nearest, ties to even).  Faithful for inputs in the normal
range, which covers every value occurring in the program. -/
def fl64 (q : QR) : QR :=
  if q.n = 0 then ⟨0, 1⟩
  else
    let s : QR := if q.n < 0 then ⟨-q.n, q.d⟩ else q
    let e := qrFloorLog2 s
    let m := rne (qrScale s (52 - e))
    let r := qrDyadic m (e - 52)
    if q.n < 0 then ⟨-r.n, r.d⟩ else r

/-- Go `float64` multiplication: exact product, rounded. -/
def goFloatMul (a b : QR) : QR := fl64 (QR.mul a b)

/-- Go `float64` division: exact quotient, rounded. -/
def goFloatDiv (a b : QR) : QR := fl64 (QR.div a b)

/-! ## Constants from `main.go` (identical in both variants) -/

/-- Screen DPI (`dpi = 72.0`). -/
def dpi : QR := QR.ofInt 72

/-- Font size in points (`fontSize = 144.0`). -/
def fontSize : QR := QR.ofInt 144

/-- Padding from the top edge (`paddingY = 20`). -/
def paddingY : Int := 20

/-- Outline width in pixels (`outlineThickness = 2`). -/
def outlineThickness : Int := 2

/-! ## Basic data -/

/-- Text colors used by the two draw passes (`image.Black`,
`image.White`). -/
inductive Color
  | black
  | white
deriving DecidableEq, Repr

/-- Go `image.Point`. -/
structure Point where
  x : Int
  y : Int
deriving DecidableEq, Repr

/-- The `offsets` slice: 8 compass directions at `outlineThickness`
pixels, with the center `(0, 0)` skipped, in source order (identical in
both variants). -/
def offsets : List Point :=
  [⟨-outlineThickness, -outlineThickness⟩, ⟨0, -outlineThickness⟩,
     ⟨outlineThickness, -outlineThickness⟩,
   ⟨-outlineThickness, 0⟩, ⟨outlineThickness, 0⟩,
   ⟨-outlineThickness, outlineThickness⟩, ⟨0, outlineThickness⟩,
     ⟨outlineThickness, outlineThickness⟩]

/-- Go `strings.ToUpper`, at the granularity the claims need (per-character
uppercasing of the input; `Char.toUpper` models `unicode.ToUpper`). -/
def goToUpper (s : String) : String := ⟨s.data.map Char.toUpper⟩

/-- Go `strings.ToLower`. -/
def goToLower (s : String) : String := ⟨s.data.map Char.toLower⟩

/-- Go `strings.HasSuffix`. -/
def goHasSuffix (s suffix : String) : Bool := suffix.data.isSuffixOf s.data

/-- Output filename normalisation, common to both variants: append
`".png"` unless the lower-cased name already ends in `".png"`. -/
def outputPath (filePath : String) : String :=
  if goHasSuffix (goToLower filePath) ".png" then filePath else filePath ++ ".png"

/-! ## Position computations -/

/-- Variant 1 `startX` (no clamping):
`startX := (imageWidth - textWidth) / 2` with Go `int` division. -/
def V1.startX (imageWidth textWidth : Int) : Int :=
  Int.tdiv (imageWidth - textWidth) 2

/-- Variant 2 `startX` (clamped):
`startX := (imageWidth - textWidth) / 2; if startX < 0 { startX = 0 }`. -/
def V2.startX (imageWidth textWidth : Int) : Int :=
  let s := Int.tdiv (imageWidth - textWidth) 2
  if s < 0 then 0 else s

/-- Variant 1 `startY`: `paddingY + int(fontSize*dpi/72.0)`.  The operand
expression is a Go constant expression, evaluated exactly (and in fact
every intermediate value is exactly representable in binary64, so runtime
semantics would agree). -/
def V1.startY : Int :=
  paddingY + QR.trunc (QR.div (QR.mul fontSize dpi) (QR.ofInt 72))

/-- The library function `freetype.Context.PointToFixed`:
`fixed.Int26_6(x * float64(c.dpi) * (64.0 / 72.0))`, runtime `float64`
arithmetic (left-associated, each operation rounded) followed by
truncation to an integer (the `26.6` fixed-point value). -/
def pointToFixed (dpiArg x : QR) : Int :=
  QR.trunc (goFloatMul (goFloatMul x dpiArg) (goFloatDiv (QR.ofInt 64) (QR.ofInt 72)))

/-- Variant 2 `startY`: `paddingY + int(c.PointToFixed(fontSize)>>6)`,
where `>> 6` is an arithmetic shift on the fixed-point value. -/
def V2.startY : Int := paddingY + Int.fdiv (pointToFixed dpi fontSize) 64

/-! ## Fonts and text measurement -/

/-- Go `font.Hinting` (`HintingNone`, `HintingVertical`, `HintingFull`). -/
inductive Hinting
  | hintingNone
  | hintingVertical
  | hintingFull
deriving DecidableEq, Repr

/-- A parsed `*truetype.Font`.  Rasterisation is outside the embedding;
the font is characterised by its measurement behaviour:
`measureFixed size dpi hinting text` is the value of
`font.MeasureString(truetype.NewFace(fnt, opts), text)`, a `26.6`
fixed-point width (`fixed.Int26_6`, an integer). -/
structure TruetypeFont where
  measureFixed : QR → QR → Hinting → String → Int

/-- The helper `measureString` (identical in both variants): builds a face, measures
the string, shifts the `26.6` fixed-point width right by 6 bits
(arithmetic shift), and returns `nil` for the error. -/
def measureString (fnt : TruetypeFont) (size dpi : QR) (hinting : Hinting)
    (text : String) : Int × Option String :=
  let widthInFixedPoint := fnt.measureFixed size dpi hinting text
  let widthInPixels := Int.fdiv widthInFixedPoint 64
  (widthInPixels, none)

/-! ## Images, canvases and the effect environment -/

/-- A decoded bitmap: PNG decoding yields bounds with `Min = (0, 0)`, so
an image is its width, height and pixel grid (pixel values abstract, at
the granularity of the RGBA conversion performed by `draw.Draw`). -/
structure Image where
  width : Nat
  height : Nat
  pixels : List (List Nat)
deriving DecidableEq, Repr

/-- The drawing canvas: `image.NewRGBA(bounds)` followed by `draw.Draw(rgbaImg,
bounds, baseImg, image.Point{}, draw.Src)` — the template's bounds and a
pixel-for-pixel copy of its content.  Text rasterisation on top of it is
recorded separately as draw events. -/
structure Canvas where
  width : Nat
  height : Nat
  pixels : List (List Nat)
deriving DecidableEq, Repr

/-- Destination of the PNG bytes. -/
inductive Dest
  | stdout
  | file (path : String)
deriving DecidableEq, Repr

/-- Outcome of `png.Encode`: `nil`, an `*os.PathError` (with its `Op` and
`Path` fields), or some other error. -/
inductive EncodeErr
  | pathError (op : String) (path : String)
  | other (msg : String)
deriving DecidableEq, Repr

/-- One `c.DrawString(text, pt)` call: the text, the color set by the
preceding `c.SetSrc`, and the baseline point. -/
abbrev DrawEv : Type := String × Color × Point

/-- Oracles for the effectful steps: the embedded template's decode
result, font parse success, the parsed font, which `DrawString` calls
fail, the `png.Encode` outcome, and whether `os.Create` succeeds. -/
structure Env where
  template : Option Image
  fontOk : Bool
  fnt : TruetypeFont
  drawFails : String → Point → Bool
  encodeErr : Option EncodeErr
  createOk : Bool

/-- Observable outcome of one process invocation. -/
structure Outcome where
  exitCode : Nat := 0
  usagePrinted : Bool := false
  warnedSuffix : Bool := false
  fileCreated : Option String := none
  decodeAttempted : Bool := false
  measured : Option String := none
  measureErrorReported : Bool := false
  draws : List DrawEv := []
  outlineWarnings : List Point := []
  encoded : Option Canvas := none
  encodeDest : Option Dest := none
  brokenPipeWarned : Bool := false
  errMsg : Option String := none
deriving DecidableEq, Repr

/-! ## Variant 1: the monolithic `main` -/

/-- Output destination chosen by variant 1's argument handling. -/
structure DestSetup where
  fileCreated : Option String
  warned : Bool
deriving DecidableEq, Repr

/-- Variant 1 outline loop: draws at every offset, collecting the offsets
whose `DrawString` failed (each is only warned about; the loop
continues). -/
def V1.drawOutlineAll (env : Env) (text : String) (sx sy : Int) :
    List Point → List DrawEv × List Point
  | [] => ([], [])
  | off :: rest =>
    let pt : Point := ⟨sx + off.x, sy + off.y⟩
    let r := V1.drawOutlineAll env text sx sy rest
    ((text, Color.black, pt) :: r.1,
      if env.drawFails text pt then off :: r.2 else r.2)

/-- Variant 1, steps 2–8 of `main` (after argument handling): decode the
template, parse the font, build the canvas, measure, position, draw the
outline passes (warn-and-continue) and the fill pass (fatal on error),
then encode, treating a `write`/`"|1"` path error as a reported,
non-fatal broken pipe.  `log.Fatalf` is exit code 1. -/
def V1.renderFrom (env : Env) (text : String) (ds : DestSetup) : Outcome :=
  let base : Outcome :=
    { warnedSuffix := ds.warned, fileCreated := ds.fileCreated, decodeAttempted := true }
  match env.template with
  | none => { base with exitCode := 1, errMsg := some "decoding template image" }
  | some img =>
    if env.fontOk then
      let canvas : Canvas := ⟨img.width, img.height, img.pixels⟩
      match measureString env.fnt fontSize dpi Hinting.hintingFull text with
      | (_, some _) =>
        { base with exitCode := 1, measured := some text,
                    measureErrorReported := true, errMsg := some "measuring text" }
      | (textWidth, none) =>
        let sx := V1.startX (img.width : Int) textWidth
        let sy := V1.startY
        let ol := V1.drawOutlineAll env text sx sy offsets
        let fillPt : Point := ⟨sx, sy⟩
        let base2 : Outcome :=
          { base with measured := some text,
                      draws := ol.1 ++ [(text, Color.white, fillPt)],
                      outlineWarnings := ol.2 }
        if env.drawFails text fillPt then
          { base2 with exitCode := 1, errMsg := some "drawing main text" }
        else
          let dest : Dest :=
            match ds.fileCreated with
            | none => Dest.stdout
            | some p => Dest.file p
          let enc : Outcome :=
            { base2 with encoded := some canvas, encodeDest := some dest }
          match env.encodeErr with
          | none => enc
          | some (EncodeErr.pathError op path) =>
            if op = "write" ∧ path = "|1" then { enc with brokenPipeWarned := true }
            else { enc with exitCode := 1, errMsg := some "encoding PNG" }
          | some (EncodeErr.other _) =>
            { enc with exitCode := 1, errMsg := some "encoding PNG" }
    else { base with exitCode := 1, errMsg := some "parsing font" }

/-- Variant 1 `main`: usage check, uppercasing, output-file handling
(suffix normalisation with warning, `os.Create` fatal on failure), then
the render pipeline. -/
def V1.progMain (env : Env) (args : List String) : Outcome :=
  if args.length < 2 ∨ args.getD 1 "" = "" then
    { exitCode := 1, usagePrinted := true }
  else
    let memeText := goToUpper (args.getD 1 "")
    if 2 < args.length then
      let filePath := args.getD 2 ""
      let warned := !(goHasSuffix (goToLower filePath) ".png")
      if env.createOk then
        V1.renderFrom env memeText ⟨some (outputPath filePath), warned⟩
      else
        { exitCode := 1, warnedSuffix := warned, errMsg := some "creating output file" }
    else
      V1.renderFrom env memeText ⟨none, false⟩

/-! ## Variant 2: `main` + `run` -/

/-- Variant 2 outline loop: draws offsets in order but returns at the
first failing `DrawString`, reporting which offset failed. -/
def V2.drawOutline (env : Env) (text : String) (sx sy : Int) :
    List Point → List DrawEv × Option Point
  | [] => ([], none)
  | off :: rest =>
    let pt : Point := ⟨sx + off.x, sy + off.y⟩
    if env.drawFails text pt then ([(text, Color.black, pt)], some off)
    else
      let r := V2.drawOutline env text sx sy rest
      ((text, Color.black, pt) :: r.1, r.2)

/-- Variant 2 `run`: every failing step returns an error (recorded in
`errMsg`; `main` maps it to exit code 1).  A `png.Encode` `*os.PathError`
with `Op == "write"` while writing to stdout is wrapped as
`"writing PNG to stdout"` — still an error. -/
def V2.run (env : Env) (memeText outputFilename : String) : Outcome :=
  let created : Option (Option String) :=
    if outputFilename = "" then some none
    else if env.createOk then some (some outputFilename) else none
  match created with
  | none => { errMsg := some "creating output file" }
  | some fc =>
    let base : Outcome := { fileCreated := fc, decodeAttempted := true }
    match env.template with
    | none => { base with errMsg := some "decoding template image" }
    | some img =>
      if env.fontOk then
        let canvas : Canvas := ⟨img.width, img.height, img.pixels⟩
        match measureString env.fnt fontSize dpi Hinting.hintingFull memeText with
        | (_, some _) =>
          { base with measured := some memeText, measureErrorReported := true,
                      errMsg := some "measuring text width" }
        | (textWidth, none) =>
          let sx := V2.startX (img.width : Int) textWidth
          let sy := V2.startY
          let ol := V2.drawOutline env memeText sx sy offsets
          match ol.2 with
          | some _ =>
            { base with measured := some memeText, draws := ol.1,
                        errMsg := some "drawing outline part" }
          | none =>
            let fillPt : Point := ⟨sx, sy⟩
            let base2 : Outcome :=
              { base with measured := some memeText,
                          draws := ol.1 ++ [(memeText, Color.white, fillPt)] }
            if env.drawFails memeText fillPt then
              { base2 with errMsg := some "drawing main text fill" }
            else
              let dest : Dest :=
                match fc with
                | none => Dest.stdout
                | some p => Dest.file p
              let enc : Outcome :=
                { base2 with encoded := some canvas, encodeDest := some dest }
              match env.encodeErr with
              | none => enc
              | some (EncodeErr.pathError op _) =>
                if op = "write" ∧ fc = none then
                  { enc with errMsg := some "writing PNG to stdout" }
                else { enc with errMsg := some "encoding or writing PNG" }
              | some (EncodeErr.other _) =>
                { enc with errMsg := some "encoding or writing PNG" }
      else { base with errMsg := some "parsing font" }

/-- Variant 2 `main`: usage check, uppercasing, suffix normalisation
(with warning), then `run`; a returned error is printed and the process
exits 1, otherwise it exits 0. -/
def V2.progMain (env : Env) (args : List String) : Outcome :=
  if args.length < 2 ∨ args.getD 1 "" = "" then
    { exitCode := 1, usagePrinted := true }
  else
    let memeText := goToUpper (args.getD 1 "")
    let outputFilename :=
      if 2 < args.length then outputPath (args.getD 2 "") else ""
    let warned :=
      if 2 < args.length then !(goHasSuffix (goToLower (args.getD 2 "")) ".png")
      else false
    let o := { V2.run env memeText outputFilename with warnedSuffix := warned }
    match o.errMsg with
    | some _ => { o with exitCode := 1 }
    | none => { o with exitCode := 0 }

/-! ## General lemmas about the outline loops -/

theorem V1.drawOutlineAll_fst (env : Env) (text : String) (sx sy : Int) :
    ∀ offs : List Point,
      (V1.drawOutlineAll env text sx sy offs).1 =
        offs.map (fun off => (text, Color.black, ⟨sx + off.x, sy + off.y⟩))
  | [] => rfl
  | off :: rest => by
    simp [V1.drawOutlineAll, V1.drawOutlineAll_fst env text sx sy rest]

theorem V1.drawOutlineAll_snd_nil (env : Env) (text : String) (sx sy : Int)
    (hdraw : ∀ s p, env.drawFails s p = false) :
    ∀ offs : List Point, (V1.drawOutlineAll env text sx sy offs).2 = []
  | [] => rfl
  | off :: rest => by
    simp [V1.drawOutlineAll, hdraw, V1.drawOutlineAll_snd_nil env text sx sy hdraw rest]

theorem V2.drawOutline_ok (env : Env) (text : String) (sx sy : Int)
    (hdraw : ∀ s p, env.drawFails s p = false) :
    ∀ offs : List Point,
      V2.drawOutline env text sx sy offs =
        (offs.map (fun off => (text, Color.black, ⟨sx + off.x, sy + off.y⟩)), none)
  | [] => rfl
  | off :: rest => by
    simp [V2.drawOutline, hdraw, V2.drawOutline_ok env text sx sy hdraw rest]

theorem V2.drawOutline_texts (env : Env) (text : String) (sx sy : Int) :
    ∀ offs : List Point, ∀ d ∈ (V2.drawOutline env text sx sy offs).1,
      d.1 = text ∧ d.2.1 = Color.black
  | [] => by simp [V2.drawOutline]
  | off :: rest => by
    intro d hd
    by_cases h : env.drawFails text ⟨sx + off.x, sy + off.y⟩ = true
    · simp [V2.drawOutline, h] at hd
      simp [hd]
    · rw [Bool.not_eq_true] at h
      simp [V2.drawOutline, h] at hd
      rcases hd with hd | hd
      · simp [hd]
      · exact V2.drawOutline_texts env text sx sy rest d hd

theorem V2.drawOutline_len (env : Env) (text : String) (sx sy : Int) :
    ∀ offs : List Point,
      (V2.drawOutline env text sx sy offs).1.length ≤ offs.length
  | [] => by simp [V2.drawOutline]
  | off :: rest => by
    have ih := V2.drawOutline_len env text sx sy rest
    by_cases h : env.drawFails text ⟨sx + off.x, sy + off.y⟩ = true <;>
      simp [V2.drawOutline, h] <;> omega

theorem V1.drawOutlineAll_texts (env : Env) (text : String) (sx sy : Int)
    (offs : List Point) :
    ∀ d ∈ (V1.drawOutlineAll env text sx sy offs).1, d.1 = text := by
  rw [V1.drawOutlineAll_fst]
  intro d hd
  simp at hd
  obtain ⟨off, _, rfl⟩ := hd
  rfl

/-! ## General lemmas about the pipelines -/

theorem V1.renderFrom_fixed (env : Env) (text : String) (ds : DestSetup) :
    (V1.renderFrom env text ds).fileCreated = ds.fileCreated ∧
    (V1.renderFrom env text ds).warnedSuffix = ds.warned ∧
    (V1.renderFrom env text ds).measureErrorReported = false ∧
    (V1.renderFrom env text ds).usagePrinted = false ∧
    ((V1.renderFrom env text ds).measured = none ∨
      (V1.renderFrom env text ds).measured = some text) ∧
    ((V1.renderFrom env text ds).encodeDest = none ∨
      (V1.renderFrom env text ds).encodeDest =
        some (match ds.fileCreated with
              | none => Dest.stdout
              | some p => Dest.file p)) := by
  rcases env with ⟨_ | img, fOk, fnt, dFails, _ | (⟨op, path⟩ | ⟨m⟩), cOk⟩ <;>
    rcases fOk with _ | _ <;>
    rcases ds with ⟨_ | p, w⟩ <;>
    simp only [V1.renderFrom, measureString] <;>
    (iterate 3 (try (split <;> try simp))) <;>
    (try simp)

theorem V2.run_fixed (env : Env) (memeText outputFilename : String) :
    (V2.run env memeText outputFilename).fileCreated =
      (if outputFilename = "" then none
       else if env.createOk = true then some outputFilename else none) ∧
    (V2.run env memeText outputFilename).measureErrorReported = false ∧
    (V2.run env memeText outputFilename).usagePrinted = false ∧
    ((V2.run env memeText outputFilename).measured = none ∨
      (V2.run env memeText outputFilename).measured = some memeText) ∧
    ((V2.run env memeText outputFilename).encodeDest = none ∨
      (V2.run env memeText outputFilename).encodeDest =
        some (if outputFilename = "" then Dest.stdout else Dest.file outputFilename)) := by
  rcases env with ⟨_ | img, fOk, fnt, dFails, _ | (⟨op, path⟩ | ⟨m⟩), cOk⟩ <;>
    rcases fOk with _ | _ <;>
    by_cases ho : outputFilename = "" <;>
    rcases cOk with _ | _ <;>
    simp only [V2.run, measureString, ho, if_true, if_false, ite_true, ite_false] <;>
    (iterate 3 (try (split <;> try simp_all))) <;>
    (try simp_all)

theorem V1.progMain_usage_false (env : Env) (args : List String)
    (h : ¬(args.length < 2 ∨ args.getD 1 "" = "")) :
    (V1.progMain env args).usagePrinted = false := by
  unfold V1.progMain
  rw [if_neg h]
  split
  · split
    · exact (V1.renderFrom_fixed _ _ _).2.2.2.1
    · rfl
  · exact (V1.renderFrom_fixed _ _ _).2.2.2.1

theorem V1.renderFrom_draws_text (env : Env) (text : String) (ds : DestSetup) :
    ∀ d ∈ (V1.renderFrom env text ds).draws, d.1 = text := by
  have hall : ∀ sx sy, ∀ d ∈ (V1.drawOutlineAll env text sx sy offsets).1, d.1 = text :=
    fun sx sy => V1.drawOutlineAll_texts env text sx sy offsets
  rcases env with ⟨_ | img, fOk, fnt, dFails, _ | (⟨op, path⟩ | ⟨m⟩), cOk⟩ <;>
    rcases fOk with _ | _ <;>
    rcases ds with ⟨_ | p, w⟩ <;>
    simp only [V1.renderFrom, measureString] <;>
    (iterate 6 (try split))
  all_goals intro d hd
  all_goals (iterate 3 (try (split at hd)))
  all_goals (try simp at hd)
  all_goals (try rcases hd with hd | hd)
  all_goals first
    | exact hall _ _ d hd
    | simp [hd]

/-! ## Derived position/draw abbreviations (compositions of the source
definitions, used to state the claims) -/

/-- The pixel text width used by both variants: first component of
`measureString` at the fixed size, DPI and hinting. -/
def textWidthOf (env : Env) (text : String) : Int :=
  (measureString env.fnt fontSize dpi Hinting.hintingFull text).1

/-- Variant 1's draw start X for a given template and text. -/
def V1.startXFor (env : Env) (img : Image) (text : String) : Int :=
  V1.startX (img.width : Int) (textWidthOf env text)

/-- Variant 2's draw start X for a given template and text. -/
def V2.startXFor (env : Env) (img : Image) (text : String) : Int :=
  V2.startX (img.width : Int) (textWidthOf env text)

/-- The eight black outline draw events for text at `(sx, sy)`, in source
order. -/
def outlineDraws (text : String) (sx sy : Int) : List DrawEv :=
  offsets.map (fun off => (text, Color.black, ⟨sx + off.x, sy + off.y⟩))

/-! ## Success- and error-path lemmas -/

theorem V1.renderFrom_ok (env : Env) (text : String) (ds : DestSetup) (img : Image)
    (htpl : env.template = some img) (hfont : env.fontOk = true)
    (hdraw : ∀ s p, env.drawFails s p = false) (henc : env.encodeErr = none) :
    V1.renderFrom env text ds =
      { exitCode := 0, warnedSuffix := ds.warned, fileCreated := ds.fileCreated,
        decodeAttempted := true, measured := some text,
        draws := outlineDraws text (V1.startXFor env img text) V1.startY ++
          [(text, Color.white, ⟨V1.startXFor env img text, V1.startY⟩)],
        outlineWarnings := [],
        encoded := some ⟨img.width, img.height, img.pixels⟩,
        encodeDest := some (match ds.fileCreated with
                            | none => Dest.stdout
                            | some p => Dest.file p),
        brokenPipeWarned := false, errMsg := none } := by
  have h1 : ∀ sx sy offs, (V1.drawOutlineAll env text sx sy offs).2 = [] :=
    fun sx sy => V1.drawOutlineAll_snd_nil env text sx sy hdraw
  unfold V1.renderFrom measureString
  rw [htpl]
  simp [hfont, hdraw, henc, h1, V1.drawOutlineAll_fst, outlineDraws,
    V1.startXFor, textWidthOf, measureString]

theorem V2.run_ok (env : Env) (text ofn : String) (img : Image)
    (htpl : env.template = some img) (hfont : env.fontOk = true)
    (hdraw : ∀ s p, env.drawFails s p = false) (henc : env.encodeErr = none)
    (hc : ofn = "" ∨ env.createOk = true) :
    V2.run env text ofn =
      { exitCode := 0, warnedSuffix := false,
        fileCreated := if ofn = "" then none else some ofn,
        decodeAttempted := true, measured := some text,
        draws := outlineDraws text (V2.startXFor env img text) V2.startY ++
          [(text, Color.white, ⟨V2.startXFor env img text, V2.startY⟩)],
        outlineWarnings := [],
        encoded := some ⟨img.width, img.height, img.pixels⟩,
        encodeDest := some (if ofn = "" then Dest.stdout else Dest.file ofn),
        brokenPipeWarned := false, errMsg := none } := by
  have h2 : ∀ sx sy offs, V2.drawOutline env text sx sy offs =
      (offs.map (fun off => (text, Color.black, ⟨sx + off.x, sy + off.y⟩)), none) :=
    fun sx sy => V2.drawOutline_ok env text sx sy hdraw
  unfold V2.run measureString
  rw [htpl]
  by_cases ho : ofn = ""
  · simp [ho, hfont, hdraw, henc, h2, outlineDraws, V2.startXFor, textWidthOf, measureString]
  · rcases hc with hc | hc
    · exact absurd hc ho
    · simp [ho, hc, hfont, hdraw, henc, h2, outlineDraws, V2.startXFor, textWidthOf,
        measureString]

theorem V1.renderFrom_brokenPipe (env : Env) (text : String) (ds : DestSetup)
    (img : Image)
    (htpl : env.template = some img) (hfont : env.fontOk = true)
    (hfill : env.drawFails text ⟨V1.startXFor env img text, V1.startY⟩ = false)
    (henc : env.encodeErr = some (EncodeErr.pathError "write" "|1")) :
    (V1.renderFrom env text ds).exitCode = 0 ∧
    (V1.renderFrom env text ds).brokenPipeWarned = true ∧
    (V1.renderFrom env text ds).encodeDest ≠ none := by
  unfold V1.renderFrom measureString
  rw [htpl]
  simp only [hfont, if_true]
  have hfill' : env.drawFails text
      ⟨V1.startX (img.width : Int)
        (Int.fdiv (env.fnt.measureFixed fontSize dpi Hinting.hintingFull text) 64),
       V1.startY⟩ = false := hfill
  simp [hfill', henc]

theorem V2.run_outline_fail (env : Env) (text ofn : String) (img : Image)
    (htpl : env.template = some img) (hfont : env.fontOk = true)
    (hc : ofn = "" ∨ env.createOk = true)
    (hfail : (V2.drawOutline env text (V2.startXFor env img text) V2.startY offsets).2.isSome
      = true) :
    (V2.run env text ofn).errMsg = some "drawing outline part" ∧
    (V2.run env text ofn).draws =
      (V2.drawOutline env text (V2.startXFor env img text) V2.startY offsets).1 ∧
    (V2.run env text ofn).encoded = none := by
  unfold V2.run measureString
  rw [htpl]
  obtain ⟨off, hoff⟩ := Option.isSome_iff_exists.mp hfail
  have hoff' : (V2.drawOutline env text
      (V2.startX (img.width : Int)
        (Int.fdiv (env.fnt.measureFixed fontSize dpi Hinting.hintingFull text) 64))
      V2.startY offsets).2 = some off := by
    simpa [V2.startXFor, textWidthOf, measureString] using hoff
  by_cases ho : ofn = ""
  · simp [ho, hfont, hoff', V2.startXFor, textWidthOf, measureString]
  · rcases hc with hc | hc
    · exact absurd hc ho
    · simp [ho, hc, hfont, hoff', V2.startXFor, textWidthOf, measureString]

/-! ## Wrapper lemmas for the two `main` functions -/

theorem V1.progMain_usage_v1 (env : Env) (args : List String)
    (h : args.length < 2 ∨ args.getD 1 "" = "") :
    V1.progMain env args = { exitCode := 1, usagePrinted := true } := by
  unfold V1.progMain
  rw [if_pos h]

theorem V2.progMain_usage_v2 (env : Env) (args : List String)
    (h : args.length < 2 ∨ args.getD 1 "" = "") :
    V2.progMain env args = { exitCode := 1, usagePrinted := true } := by
  unfold V2.progMain
  rw [if_pos h]

theorem V1.progMain_text_fields (env : Env) (args : List String)
    (h : ¬(args.length < 2 ∨ args.getD 1 "" = "")) :
    (V1.progMain env args).measureErrorReported = false ∧
    (∀ d ∈ (V1.progMain env args).draws, d.1 = goToUpper (args.getD 1 "")) ∧
    ((V1.progMain env args).measured = none ∨
      (V1.progMain env args).measured = some (goToUpper (args.getD 1 ""))) := by
  unfold V1.progMain
  rw [if_neg h]
  split
  · split
    · exact ⟨(V1.renderFrom_fixed _ _ _).2.2.1, V1.renderFrom_draws_text _ _ _,
        (V1.renderFrom_fixed _ _ _).2.2.2.2.1⟩
    · simp
  · exact ⟨(V1.renderFrom_fixed _ _ _).2.2.1, V1.renderFrom_draws_text _ _ _,
      (V1.renderFrom_fixed _ _ _).2.2.2.2.1⟩

theorem V2.run_draws_text (env : Env) (text ofn : String) :
    ∀ d ∈ (V2.run env text ofn).draws, d.1 = text := by
  have hall : ∀ sx sy, ∀ d ∈ (V2.drawOutline env text sx sy offsets).1, d.1 = text :=
    fun sx sy d hd => (V2.drawOutline_texts env text sx sy offsets d hd).1
  rcases env with ⟨_ | img, fOk, fnt, dFails, _ | (⟨op, path⟩ | ⟨m⟩), cOk⟩ <;>
    rcases fOk with _ | _ <;>
    by_cases ho : ofn = "" <;>
    rcases cOk with _ | _ <;>
    simp only [V2.run, measureString, ho, if_true, if_false, ite_true, ite_false] <;>
    (iterate 6 (try split))
  all_goals intro d hd
  all_goals (iterate 3 (try (split at hd)))
  all_goals (try simp at hd)
  all_goals (iterate 3 (try (split at hd)))
  all_goals (try simp at hd)
  all_goals (try rcases hd with hd | hd)
  all_goals first
    | exact absurd ‹false = true› (by decide)
    | exact hall _ _ d hd
    | simp [hd]
    | (exfalso; simp_all)

theorem V2.progMain_fields (env : Env) (args : List String)
    (h : ¬(args.length < 2 ∨ args.getD 1 "" = "")) :
    (V2.progMain env args).draws =
      (V2.run env (goToUpper (args.getD 1 ""))
        (if 2 < args.length then outputPath (args.getD 2 "") else "")).draws ∧
    (V2.progMain env args).measured =
      (V2.run env (goToUpper (args.getD 1 ""))
        (if 2 < args.length then outputPath (args.getD 2 "") else "")).measured ∧
    (V2.progMain env args).measureErrorReported =
      (V2.run env (goToUpper (args.getD 1 ""))
        (if 2 < args.length then outputPath (args.getD 2 "") else "")).measureErrorReported ∧
    (V2.progMain env args).fileCreated =
      (V2.run env (goToUpper (args.getD 1 ""))
        (if 2 < args.length then outputPath (args.getD 2 "") else "")).fileCreated ∧
    (V2.progMain env args).encodeDest =
      (V2.run env (goToUpper (args.getD 1 ""))
        (if 2 < args.length then outputPath (args.getD 2 "") else "")).encodeDest ∧
    (V2.progMain env args).encoded =
      (V2.run env (goToUpper (args.getD 1 ""))
        (if 2 < args.length then outputPath (args.getD 2 "") else "")).encoded ∧
    (V2.progMain env args).errMsg =
      (V2.run env (goToUpper (args.getD 1 ""))
        (if 2 < args.length then outputPath (args.getD 2 "") else "")).errMsg ∧
    (V2.progMain env args).warnedSuffix =
      (if 2 < args.length then !(goHasSuffix (goToLower (args.getD 2 "")) ".png")
       else false) ∧
    (V2.progMain env args).usagePrinted = false ∧
    (V2.progMain env args).exitCode =
      (if (V2.run env (goToUpper (args.getD 1 ""))
            (if 2 < args.length then outputPath (args.getD 2 "") else "")).errMsg.isSome
       then 1 else 0) := by
  unfold V2.progMain
  rw [if_neg h]
  by_cases hlen : 2 < args.length
  all_goals simp only [hlen, ite_true, ite_false]
  all_goals split
  case pos.h_1 x heq =>
    have heq' : (V2.run env (goToUpper (args.getD 1 ""))
        (outputPath (args.getD 2 ""))).errMsg = some x := heq
    refine ⟨rfl, rfl, rfl, rfl, rfl, rfl, rfl, rfl, ?_, ?_⟩
    · exact (V2.run_fixed _ _ _).2.2.1
    · rw [heq']
      rfl
  case pos.h_2 heq =>
    have heq' : (V2.run env (goToUpper (args.getD 1 ""))
        (outputPath (args.getD 2 ""))).errMsg = none := heq
    refine ⟨rfl, rfl, rfl, rfl, rfl, rfl, rfl, rfl, ?_, ?_⟩
    · exact (V2.run_fixed _ _ _).2.2.1
    · rw [heq']
      rfl
  case neg.h_1 x heq =>
    have heq' : (V2.run env (goToUpper (args.getD 1 "")) "").errMsg = some x := heq
    refine ⟨rfl, rfl, rfl, rfl, rfl, rfl, rfl, rfl, ?_, ?_⟩
    · exact (V2.run_fixed _ _ _).2.2.1
    · rw [heq']
      rfl
  case neg.h_2 heq =>
    have heq' : (V2.run env (goToUpper (args.getD 1 "")) "").errMsg = none := heq
    refine ⟨rfl, rfl, rfl, rfl, rfl, rfl, rfl, rfl, ?_, ?_⟩
    · exact (V2.run_fixed _ _ _).2.2.1
    · rw [heq']
      rfl

theorem V2.progMain_errExit (env : Env) (args : List String) :
    (V2.progMain env args).errMsg.isSome = true →
      (V2.progMain env args).exitCode = 1 := by
  by_cases h : args.length < 2 ∨ args.getD 1 "" = ""
  · rw [V2.progMain_usage_v2 env args h]
    simp
  · intro hs
    have hf := V2.progMain_fields env args h
    rw [hf.2.2.2.2.2.2.2.2.2, ← hf.2.2.2.2.2.2.1, hs]
    rfl

/-! ## Filename helper lemmas -/

theorem append_png_ne (s : String) : s ++ ".png" ≠ "" := by
  intro h
  have hl := congrArg String.length h
  rw [String.length_append] at hl
  have h4 : (".png" : String).length = 4 := rfl
  have h0 : ("" : String).length = 0 := rfl
  rw [h4, h0] at hl
  omega

theorem suffix_png_ne (s : String)
    (h : goHasSuffix (goToLower s) ".png" = true) : s ≠ "" := by
  intro he
  subst he
  exact absurd h (by decide)

theorem outputPath_ne_empty (s : String) : outputPath s ≠ "" := by
  unfold outputPath
  split
  next hs => exact suffix_png_ne s hs
  next => exact append_png_ne s

theorem V1.progMain_file3_v1 (env : Env) (a0 a1 s : String) (h1 : a1 ≠ "") :
    (V1.progMain env [a0, a1, s]).warnedSuffix = !(goHasSuffix (goToLower s) ".png") ∧
    (env.createOk = true →
      (V1.progMain env [a0, a1, s]).fileCreated = some (outputPath s)) := by
  have hval3 : ¬([a0, a1, s].length < 2 ∨ [a0, a1, s].getD 1 "" = "") := by
    simp [h1]
  unfold V1.progMain
  rw [if_neg hval3]
  have h23 : 2 < [a0, a1, s].length := by simp
  rw [if_pos h23]
  rcases hco : env.createOk with _ | _
  · rw [if_neg (by simp)]
    exact ⟨rfl, fun hc => absurd hc (by simp)⟩
  · rw [if_pos rfl]
    exact ⟨(V1.renderFrom_fixed _ _ _).2.1, fun _ => (V1.renderFrom_fixed _ _ _).1⟩

theorem V2.progMain_file3_v2 (env : Env) (a0 a1 s : String) (h1 : a1 ≠ "") :
    (V2.progMain env [a0, a1, s]).warnedSuffix = !(goHasSuffix (goToLower s) ".png") ∧
    (env.createOk = true →
      (V2.progMain env [a0, a1, s]).fileCreated = some (outputPath s)) := by
  have hval3 : ¬([a0, a1, s].length < 2 ∨ [a0, a1, s].getD 1 "" = "") := by
    simp [h1]
  have hf := V2.progMain_fields env [a0, a1, s] hval3
  constructor
  · rw [hf.2.2.2.2.2.2.2.1]
    rfl
  · intro hco
    rw [hf.2.2.2.1]
    show (V2.run env (goToUpper a1) (outputPath s)).fileCreated = some (outputPath s)
    rw [(V2.run_fixed env (goToUpper a1) (outputPath s)).1]
    simp [outputPath_ne_empty s, hco]

theorem V1.progMain_file2_v1 (env : Env) (a0 a1 : String) (h1 : a1 ≠ "") :
    (V1.progMain env [a0, a1]).fileCreated = none ∧
    ((V1.progMain env [a0, a1]).encodeDest = none ∨
      (V1.progMain env [a0, a1]).encodeDest = some Dest.stdout) := by
  have hval2 : ¬([a0, a1].length < 2 ∨ [a0, a1].getD 1 "" = "") := by
    simp [h1]
  unfold V1.progMain
  rw [if_neg hval2]
  have h22 : ¬(2 < [a0, a1].length) := by simp
  rw [if_neg h22]
  refine ⟨(V1.renderFrom_fixed _ _ _).1, ?_⟩
  rcases (V1.renderFrom_fixed env (goToUpper ([a0, a1].getD 1 ""))
      ⟨none, false⟩).2.2.2.2.2 with h | h
  · exact Or.inl h
  · exact Or.inr h

theorem V2.progMain_file2_v2 (env : Env) (a0 a1 : String) (h1 : a1 ≠ "") :
    (V2.progMain env [a0, a1]).fileCreated = none ∧
    ((V2.progMain env [a0, a1]).encodeDest = none ∨
      (V2.progMain env [a0, a1]).encodeDest = some Dest.stdout) := by
  have hval2 : ¬([a0, a1].length < 2 ∨ [a0, a1].getD 1 "" = "") := by
    simp [h1]
  have hf := V2.progMain_fields env [a0, a1] hval2
  constructor
  · rw [hf.2.2.2.1]
    show (V2.run env (goToUpper a1) "").fileCreated = none
    rw [(V2.run_fixed env (goToUpper a1) "").1]
    rfl
  · rw [hf.2.2.2.2.1]
    show (V2.run env (goToUpper a1) "").encodeDest = none ∨
      (V2.run env (goToUpper a1) "").encodeDest = some Dest.stdout
    rcases (V2.run_fixed env (goToUpper a1) "").2.2.2.2 with h | h
    · exact Or.inl h
    · exact Or.inr (by simpa using h)

/-! ## Concrete environments used by counterexamples and witnesses -/

/-- A small template image. -/
def imgW : Image := ⟨600, 400, [[1, 2], [3, 4]]⟩

/-- A font whose measured fixed-point width is 12800 (200 px). -/
def fontW : TruetypeFont := ⟨fun _ _ _ _ => 12800⟩

/-- Fully successful environment. -/
def envOk : Env := ⟨some imgW, true, fontW, fun _ _ => false, none, true⟩

/-- Template narrower (100 px) than the measured text (25600 = 400 px). -/
def envNarrow : Env :=
  ⟨some ⟨100, 50, [[7]]⟩, true, ⟨fun _ _ _ _ => 25600⟩, fun _ _ => false, none, true⟩

/-- Environment in which exactly the first outline pass (baseline point
`(498, 162)`, i.e. offset `(-2, -2)` from `(500, 164)`) fails. -/
def envOutlineFail : Env :=
  ⟨some ⟨1000, 400, [[1]]⟩, true, ⟨fun _ _ _ _ => 0⟩,
   fun _ p => decide (p = ⟨498, 162⟩), none, true⟩

/-- Environment in which `png.Encode` fails with the broken-pipe
`*os.PathError` (`Op = "write"`, `Path = "|1"`). -/
def envPipe : Env :=
  ⟨some imgW, true, fontW, fun _ _ => false,
   some (EncodeErr.pathError "write" "|1"), true⟩

/-! ## Claims -/

/-- C1: the claim says startX = (width − textWidth)/2, clamped to ≥ 0, so
the draw origin is never negative.  This holds for the `run`-based
variant only: `V2.startX` is the clamped Go division, while `V1.startX`
is the bare division and can be negative (see `C1_counterexample`). -/
theorem C1_startX_clamped_in_v2 (w tw : Int) :
    0 ≤ V2.startX w tw ∧
    (0 ≤ Int.tdiv (w - tw) 2 → V2.startX w tw = Int.tdiv (w - tw) 2) ∧
    (Int.tdiv (w - tw) 2 < 0 → V2.startX w tw = 0) ∧
    V1.startX w tw = Int.tdiv (w - tw) 2 := by
  refine ⟨?_, ?_, ?_, rfl⟩
  · show 0 ≤ (if Int.tdiv (w - tw) 2 < 0 then 0 else Int.tdiv (w - tw) 2)
    by_cases hlt : Int.tdiv (w - tw) 2 < 0
    · rw [if_pos hlt]
    · rw [if_neg hlt]
      omega
  · intro h0
    show (if Int.tdiv (w - tw) 2 < 0 then 0 else Int.tdiv (w - tw) 2) = Int.tdiv (w - tw) 2
    rw [if_neg (by omega)]
  · intro hneg
    show (if Int.tdiv (w - tw) 2 < 0 then 0 else Int.tdiv (w - tw) 2) = 0
    rw [if_pos hneg]

/-- C1 counterexample: in the monolithic variant, with a 100 px template
and a 400 px text, the white fill pass is drawn at `x = -150 < 0`: the
draw origin is negative, so the claim is false of that variant. -/
theorem C1_counterexample :
    (V1.progMain envNarrow ["prog", "hi"]).draws.getLast? =
      some (goToUpper "hi", Color.white, ⟨-150, 164⟩) ∧
    (V1.progMain envNarrow ["prog", "hi"]).draws.any
      (fun d => decide (d.2.2.x < 0)) = true := by decide

/-- C1 witness: the clamped variant at width 100, text width 400. -/
theorem C1_witness : 0 ≤ V2.startX 100 400 ∧ V2.startX 100 400 = 0 :=
  ⟨(C1_startX_clamped_in_v2 100 400).1,
   (C1_startX_clamped_in_v2 100 400).2.2.1 (by decide)⟩

/-- C2: the claim says a failing outline pass is terminal.  True of the
`run`-based variant: if some outline pass fails, `run` returns the
outline error, at most the 8 outline passes were attempted (so the white
fill pass was not), every attempted draw is black, nothing is encoded,
and `main` turns any `run` error into exit code 1.  The monolithic
variant instead warns and continues (see `C2_counterexample`). -/
theorem C2_outline_failure_aborts_v2 (env : Env) (text ofn : String) (img : Image)
    (htpl : env.template = some img) (hfont : env.fontOk = true)
    (hc : ofn = "" ∨ env.createOk = true)
    (hfail : (V2.drawOutline env text (V2.startXFor env img text) V2.startY
      offsets).2.isSome = true) :
    (V2.run env text ofn).errMsg = some "drawing outline part" ∧
    (V2.run env text ofn).draws.length ≤ 8 ∧
    (∀ d ∈ (V2.run env text ofn).draws, d.2.1 = Color.black) ∧
    (V2.run env text ofn).encoded = none ∧
    (∀ env2 args, (V2.progMain env2 args).errMsg.isSome = true →
      (V2.progMain env2 args).exitCode = 1) := by
  have h := V2.run_outline_fail env text ofn img htpl hfont hc hfail
  have hlen := V2.drawOutline_len env text (V2.startXFor env img text) V2.startY offsets
  have h8 : offsets.length = 8 := rfl
  refine ⟨h.1, ?_, ?_, h.2.2, fun env2 args => V2.progMain_errExit env2 args⟩
  · rw [h.2.1]
    omega
  · rw [h.2.1]
    intro d hd
    exact (V2.drawOutline_texts env text _ _ offsets d hd).2

/-- C2 counterexample: in the monolithic variant, when the first outline
pass fails (offset `(-2, -2)`), the failure is only recorded as a
warning, all 9 draw calls are still made (including the white fill), and
the program exits 0 — the error is not terminal. -/
theorem C2_counterexample :
    (V1.progMain envOutlineFail ["prog", "hi"]).outlineWarnings = [⟨-2, -2⟩] ∧
    (V1.progMain envOutlineFail ["prog", "hi"]).draws.length = 9 ∧
    (V1.progMain envOutlineFail ["prog", "hi"]).exitCode = 0 := by decide

/-- C2 witness: the same failing-outline environment run through the
`run`-based variant aborts. -/
theorem C2_witness :
    (V2.run envOutlineFail "HI" "").errMsg = some "drawing outline part" ∧
    (V2.run envOutlineFail "HI" "").draws.length ≤ 8 ∧
    (V2.run envOutlineFail "HI" "").encoded = none :=
  ⟨(C2_outline_failure_aborts_v2 envOutlineFail "HI" "" ⟨1000, 400, [[1]]⟩
      rfl rfl (Or.inl rfl) (by decide)).1,
   (C2_outline_failure_aborts_v2 envOutlineFail "HI" "" ⟨1000, 400, [[1]]⟩
      rfl rfl (Or.inl rfl) (by decide)).2.1,
   (C2_outline_failure_aborts_v2 envOutlineFail "HI" "" ⟨1000, 400, [[1]]⟩
      rfl rfl (Or.inl rfl) (by decide)).2.2.2.1⟩

/-- C3: the claim says a broken pipe on stdout is reported but the
program still exits 0.  True of the monolithic variant: a `write`/`"|1"`
path error from `png.Encode` is only warned about and the program
proceeds to exit 0.  The `run`-based variant wraps the error and exits 1
(see `C3_counterexample`). -/
theorem C3_broken_pipe_nonfatal_v1 (env : Env) (args : List String) (img : Image)
    (h2 : 2 ≤ args.length) (hne : args.getD 1 "" ≠ "")
    (hfile : args.length = 2 ∨ env.createOk = true)
    (htpl : env.template = some img) (hfont : env.fontOk = true)
    (hfill : env.drawFails (goToUpper (args.getD 1 ""))
      ⟨V1.startXFor env img (goToUpper (args.getD 1 "")), V1.startY⟩ = false)
    (henc : env.encodeErr = some (EncodeErr.pathError "write" "|1")) :
    (V1.progMain env args).exitCode = 0 ∧
    (V1.progMain env args).brokenPipeWarned = true := by
  have hval : ¬(args.length < 2 ∨ args.getD 1 "" = "") := by
    intro hv
    rcases hv with hv | hv
    · omega
    · exact hne hv
  have hbp := fun ds => V1.renderFrom_brokenPipe env (goToUpper (args.getD 1 "")) ds img
    htpl hfont hfill henc
  unfold V1.progMain
  rw [if_neg hval]
  split
  next hgt =>
    rcases hfile with hf | hf
    · omega
    · rw [if_pos hf]
      exact ⟨(hbp _).1, (hbp _).2.1⟩
  next hgt =>
    exact ⟨(hbp _).1, (hbp _).2.1⟩

/-- C3 counterexample: the `run`-based variant, writing to stdout with a
broken-pipe path error, reports the wrapped error and exits 1, not 0. -/
theorem C3_counterexample :
    (V2.progMain envPipe ["prog", "hi"]).errMsg = some "writing PNG to stdout" ∧
    (V2.progMain envPipe ["prog", "hi"]).exitCode = 1 := by decide

/-- C3 witness: the monolithic variant on the broken-pipe environment. -/
theorem C3_witness :
    (V1.progMain envPipe ["prog", "hi"]).exitCode = 0 ∧
    (V1.progMain envPipe ["prog", "hi"]).brokenPipeWarned = true :=
  C3_broken_pipe_nonfatal_v1 envPipe ["prog", "hi"] imgW (by decide) (by decide)
    (Or.inl rfl) rfl rfl (by decide) rfl

/-- C4: in both variants, every `DrawString` call uses exactly the
upper-cased first argument, and the measured text (when measurement is
reached) is that same string — no other transformation is applied. -/
theorem C4_drawn_text_is_uppercased (env : Env) (args : List String) :
    (∀ d ∈ (V1.progMain env args).draws, d.1 = goToUpper (args.getD 1 "")) ∧
    (∀ d ∈ (V2.progMain env args).draws, d.1 = goToUpper (args.getD 1 "")) ∧
    ((V1.progMain env args).measured = none ∨
      (V1.progMain env args).measured = some (goToUpper (args.getD 1 ""))) ∧
    ((V2.progMain env args).measured = none ∨
      (V2.progMain env args).measured = some (goToUpper (args.getD 1 ""))) := by
  by_cases h : args.length < 2 ∨ args.getD 1 "" = ""
  · rw [V1.progMain_usage_v1 env args h, V2.progMain_usage_v2 env args h]
    simp
  · have h1 := V1.progMain_text_fields env args h
    have h2 := V2.progMain_fields env args h
    refine ⟨h1.2.1, ?_, h1.2.2, ?_⟩
    · rw [h2.1]
      exact V2.run_draws_text env _ _
    · rw [h2.2.1]
      exact (V2.run_fixed _ _ _).2.2.2.1

/-- C4 witness: a mixed-case input, with all 9 draws performed. -/
theorem C4_witness :
    (∀ d ∈ (V1.progMain envOk ["prog", "Hi mom"]).draws, d.1 = goToUpper "Hi mom") ∧
    goToUpper "Hi mom" = "HI MOM" ∧
    (V1.progMain envOk ["prog", "Hi mom"]).draws.length = 9 :=
  ⟨(C4_drawn_text_is_uppercased envOk ["prog", "Hi mom"]).1, by decide, by decide⟩

/-- C5: on a fully successful run, both variants draw exactly 9 times in
the fixed order: the 8 black outline passes (one per offset, in source
order) followed by one white fill pass at the unshifted `(startX,
startY)`; and the offsets are precisely the pairs with coordinates in
{−2, 0, +2} minus `(0, 0)`, each occurring once. -/
theorem C5_nine_draws_in_order (env : Env) (args : List String) (img : Image)
    (h2 : 2 ≤ args.length) (hne : args.getD 1 "" ≠ "")
    (htpl : env.template = some img) (hfont : env.fontOk = true)
    (hcreate : env.createOk = true)
    (hdraw : ∀ s p, env.drawFails s p = false)
    (henc : env.encodeErr = none) :
    (V1.progMain env args).draws =
      outlineDraws (goToUpper (args.getD 1 ""))
          (V1.startXFor env img (goToUpper (args.getD 1 ""))) V1.startY ++
        [(goToUpper (args.getD 1 ""), Color.white,
          ⟨V1.startXFor env img (goToUpper (args.getD 1 "")), V1.startY⟩)] ∧
    (V2.progMain env args).draws =
      outlineDraws (goToUpper (args.getD 1 ""))
          (V2.startXFor env img (goToUpper (args.getD 1 ""))) V2.startY ++
        [(goToUpper (args.getD 1 ""), Color.white,
          ⟨V2.startXFor env img (goToUpper (args.getD 1 "")), V2.startY⟩)] ∧
    offsets.length = 8 ∧
    offsets.Nodup ∧
    (∀ p ∈ offsets,
      (p.x = -2 ∨ p.x = 0 ∨ p.x = 2) ∧ (p.y = -2 ∨ p.y = 0 ∨ p.y = 2) ∧
        ¬(p.x = 0 ∧ p.y = 0)) ∧
    (∀ dx ∈ [(-2 : Int), 0, 2], ∀ dy ∈ [(-2 : Int), 0, 2],
      ¬(dx = 0 ∧ dy = 0) → (⟨dx, dy⟩ : Point) ∈ offsets) := by
  have hval : ¬(args.length < 2 ∨ args.getD 1 "" = "") := by
    intro hv
    rcases hv with hv | hv
    · omega
    · exact hne hv
  refine ⟨?_, ?_, by decide, by decide, by decide, by decide⟩
  · unfold V1.progMain
    rw [if_neg hval]
    split
    all_goals first
      | rw [V1.renderFrom_ok env (goToUpper (args.getD 1 "")) _ img htpl hfont hdraw henc]
      | simp_all
  · rw [(V2.progMain_fields env args hval).1,
      V2.run_ok env (goToUpper (args.getD 1 "")) _ img htpl hfont hdraw henc
        (Or.inr hcreate)]

/-- C5 witness: the successful environment, with both variants. -/
theorem C5_witness :
    (V1.progMain envOk ["prog", "hi"]).draws =
      outlineDraws (goToUpper "hi") (V1.startXFor envOk imgW (goToUpper "hi")) V1.startY ++
        [(goToUpper "hi", Color.white,
          ⟨V1.startXFor envOk imgW (goToUpper "hi"), V1.startY⟩)] :=
  (C5_nine_draws_in_order envOk ["prog", "hi"] imgW (by decide) (by decide)
    rfl rfl rfl (fun _ _ => rfl) rfl).1

/-- C6: both variants place the baseline at `startY = 164`: the fixed
20 px top padding plus 144 px (the 144 pt size converted at 72 DPI).  The
monolithic variant computes `int(fontSize*dpi/72.0) = 144` exactly; the
`run`-based variant computes `int(c.PointToFixed(fontSize) >> 6)` through
binary64 arithmetic, where `PointToFixed` yields exactly 9216 = 144·64,
so the two agree. -/
theorem C6_startY_164_both :
    V1.startY = 164 ∧ V2.startY = 164 ∧
    V1.startY = paddingY + 144 ∧ V2.startY = paddingY + 144 ∧
    pointToFixed dpi fontSize = 9216 ∧
    QR.trunc (QR.div (QR.mul fontSize dpi) (QR.ofInt 72)) = 144 ∧
    Int.fdiv (pointToFixed dpi fontSize) 64 = 144 := by decide

/-- C7: output filename handling in both variants: a name whose
lower-cased form ends in ".png" is used unchanged with no warning; any
other name gets ".png" appended with a warning; with no output argument
no file is created and the PNG (when encoding is reached) goes to
standard output. -/
theorem C7_output_filename_handling (env : Env) (a0 a1 s : String) (h1 : a1 ≠ "") :
    (goHasSuffix (goToLower s) ".png" = true →
      outputPath s = s ∧
      (V1.progMain env [a0, a1, s]).warnedSuffix = false ∧
      (V2.progMain env [a0, a1, s]).warnedSuffix = false ∧
      (env.createOk = true →
        (V1.progMain env [a0, a1, s]).fileCreated = some s ∧
        (V2.progMain env [a0, a1, s]).fileCreated = some s)) ∧
    (goHasSuffix (goToLower s) ".png" = false →
      outputPath s = s ++ ".png" ∧
      (V1.progMain env [a0, a1, s]).warnedSuffix = true ∧
      (V2.progMain env [a0, a1, s]).warnedSuffix = true ∧
      (env.createOk = true →
        (V1.progMain env [a0, a1, s]).fileCreated = some (s ++ ".png") ∧
        (V2.progMain env [a0, a1, s]).fileCreated = some (s ++ ".png"))) ∧
    ((V1.progMain env [a0, a1]).fileCreated = none ∧
     (V2.progMain env [a0, a1]).fileCreated = none ∧
     ((V1.progMain env [a0, a1]).encodeDest = none ∨
       (V1.progMain env [a0, a1]).encodeDest = some Dest.stdout) ∧
     ((V2.progMain env [a0, a1]).encodeDest = none ∨
       (V2.progMain env [a0, a1]).encodeDest = some Dest.stdout)) := by
  refine ⟨?_, ?_, (V1.progMain_file2_v1 env a0 a1 h1).1, (V2.progMain_file2_v2 env a0 a1 h1).1,
    (V1.progMain_file2_v1 env a0 a1 h1).2, (V2.progMain_file2_v2 env a0 a1 h1).2⟩
  · intro hs
    have hop : outputPath s = s := by
      unfold outputPath
      rw [if_pos hs]
    have hv1 := V1.progMain_file3_v1 env a0 a1 s h1
    have hv2 := V2.progMain_file3_v2 env a0 a1 s h1
    exact ⟨hop, by rw [hv1.1, hs]; rfl, by rw [hv2.1, hs]; rfl,
      fun hco => ⟨by rw [hv1.2 hco, hop], by rw [hv2.2 hco, hop]⟩⟩
  · intro hs
    have hop : outputPath s = s ++ ".png" := by
      unfold outputPath
      rw [if_neg (by simp [hs])]
    have hv1 := V1.progMain_file3_v1 env a0 a1 s h1
    have hv2 := V2.progMain_file3_v2 env a0 a1 s h1
    exact ⟨hop, by rw [hv1.1, hs]; rfl, by rw [hv2.1, hs]; rfl,
      fun hco => ⟨by rw [hv1.2 hco, hop], by rw [hv2.2 hco, hop]⟩⟩

/-- C7 witness: "out" gains the suffix; "out.PNG" is kept; two-argument
runs create no file and encode to stdout. -/
theorem C7_witness :
    outputPath "out" = "out" ++ ".png" ∧
    outputPath "out.PNG" = "out.PNG" ∧
    (V1.progMain envOk ["prog", "hi", "out"]).fileCreated = some ("out" ++ ".png") ∧
    (V2.progMain envOk ["prog", "hi", "out"]).fileCreated = some ("out" ++ ".png") ∧
    (V1.progMain envOk ["prog", "hi"]).fileCreated = none :=
  ⟨((C7_output_filename_handling envOk "prog" "hi" "out" (by decide)).2.1 (by decide)).1,
   ((C7_output_filename_handling envOk "prog" "hi" "out.PNG" (by decide)).1 (by decide)).1,
   (((C7_output_filename_handling envOk "prog" "hi" "out" (by decide)).2.1 (by decide)).2.2.2
      rfl).1,
   (((C7_output_filename_handling envOk "prog" "hi" "out" (by decide)).2.1 (by decide)).2.2.2
      rfl).2,
   (C7_output_filename_handling envOk "prog" "hi" "x" (by decide)).2.2.1⟩

/-- C8: with a missing or empty text argument both variants print the
usage message, exit 1, and stop before any decoding, drawing, file
creation or encoding. -/
theorem C8_missing_text_usage (env : Env) (args : List String)
    (h : args.length < 2 ∨ args.getD 1 "" = "") :
    (V1.progMain env args).exitCode = 1 ∧
    (V1.progMain env args).usagePrinted = true ∧
    (V1.progMain env args).fileCreated = none ∧
    (V1.progMain env args).decodeAttempted = false ∧
    (V1.progMain env args).draws = [] ∧
    (V1.progMain env args).encoded = none ∧
    (V2.progMain env args).exitCode = 1 ∧
    (V2.progMain env args).usagePrinted = true ∧
    (V2.progMain env args).fileCreated = none ∧
    (V2.progMain env args).decodeAttempted = false ∧
    (V2.progMain env args).draws = [] ∧
    (V2.progMain env args).encoded = none := by
  rw [V1.progMain_usage_v1 env args h, V2.progMain_usage_v2 env args h]
  exact ⟨rfl, rfl, rfl, rfl, rfl, rfl, rfl, rfl, rfl, rfl, rfl, rfl⟩

/-- C8 witness: a single-argument invocation. -/
theorem C8_witness :
    (V1.progMain envOk ["prog"]).exitCode = 1 ∧
    (V1.progMain envOk ["prog"]).usagePrinted = true ∧
    (V1.progMain envOk ["prog"]).fileCreated = none ∧
    (V2.progMain envOk ["prog"]).exitCode = 1 ∧
    (V2.progMain envOk ["prog"]).draws = [] :=
  ⟨(C8_missing_text_usage envOk ["prog"] (by decide)).1,
   (C8_missing_text_usage envOk ["prog"] (by decide)).2.1,
   (C8_missing_text_usage envOk ["prog"] (by decide)).2.2.1,
   (C8_missing_text_usage envOk ["prog"] (by decide)).2.2.2.2.2.2.1,
   (C8_missing_text_usage envOk ["prog"] (by decide)).2.2.2.2.2.2.2.2.2.2.1⟩

/-- C9: a fully successful run in either variant exits 0 and encodes the
canvas whose bounds are the template bounds and whose initial content is
the template's pixel grid, copied pixel for pixel. -/
theorem C9_encoded_canvas_matches_template (env : Env) (args : List String)
    (img : Image)
    (h2 : 2 ≤ args.length) (hne : args.getD 1 "" ≠ "")
    (htpl : env.template = some img) (hfont : env.fontOk = true)
    (hcreate : env.createOk = true) (hdraw : ∀ s p, env.drawFails s p = false)
    (henc : env.encodeErr = none) :
    (V1.progMain env args).exitCode = 0 ∧
    (V1.progMain env args).encoded = some ⟨img.width, img.height, img.pixels⟩ ∧
    (V2.progMain env args).exitCode = 0 ∧
    (V2.progMain env args).encoded = some ⟨img.width, img.height, img.pixels⟩ := by
  have hval : ¬(args.length < 2 ∨ args.getD 1 "" = "") := by
    intro hv
    rcases hv with hv | hv
    · omega
    · exact hne hv
  have hrun := V2.run_ok env (goToUpper (args.getD 1 ""))
    (if 2 < args.length then outputPath (args.getD 2 "") else "") img
    htpl hfont hdraw henc (Or.inr hcreate)
  have hf := V2.progMain_fields env args hval
  refine ⟨?_, ?_, ?_, ?_⟩
  · unfold V1.progMain
    rw [if_neg hval]
    split
    all_goals first
      | rw [V1.renderFrom_ok env (goToUpper (args.getD 1 "")) _ img htpl hfont hdraw henc]
      | simp_all
  · unfold V1.progMain
    rw [if_neg hval]
    split
    all_goals first
      | rw [V1.renderFrom_ok env (goToUpper (args.getD 1 "")) _ img htpl hfont hdraw henc]
      | simp_all
  · rw [hf.2.2.2.2.2.2.2.2.2, hrun]
    rfl
  · rw [hf.2.2.2.2.2.1, hrun]

/-- C9 witness: the successful environment with the concrete template. -/
theorem C9_witness :
    (V1.progMain envOk ["prog", "hi"]).exitCode = 0 ∧
    (V1.progMain envOk ["prog", "hi"]).encoded = some ⟨600, 400, [[1, 2], [3, 4]]⟩ ∧
    (V2.progMain envOk ["prog", "hi"]).exitCode = 0 :=
  ⟨(C9_encoded_canvas_matches_template envOk ["prog", "hi"] imgW (by decide) (by decide)
      rfl rfl rfl (fun _ _ => rfl) rfl).1,
   (C9_encoded_canvas_matches_template envOk ["prog", "hi"] imgW (by decide) (by decide)
      rfl rfl rfl (fun _ _ => rfl) rfl).2.1,
   (C9_encoded_canvas_matches_template envOk ["prog", "hi"] imgW (by decide) (by decide)
      rfl rfl rfl (fun _ _ => rfl) rfl).2.2.1⟩

/-- C10: `measureString` always returns a `nil` error, and its value is
the 26.6 fixed-point measured width arithmetically shifted right 6 bits;
consequently neither variant can ever take the measurement-failure branch
at the call site, for any environment and arguments. -/
theorem C10_measureString_never_fails (fnt : TruetypeFont) (size dpiArg : QR)
    (hinting : Hinting) (text : String) :
    (measureString fnt size dpiArg hinting text).2 = none ∧
    (measureString fnt size dpiArg hinting text).1 =
      Int.fdiv (fnt.measureFixed size dpiArg hinting text) 64 ∧
    (∀ env args, (V1.progMain env args).measureErrorReported = false) ∧
    (∀ env args, (V2.progMain env args).measureErrorReported = false) := by
  refine ⟨rfl, rfl, ?_, ?_⟩
  · intro env args
    by_cases h : args.length < 2 ∨ args.getD 1 "" = ""
    · rw [V1.progMain_usage_v1 env args h]
    · exact (V1.progMain_text_fields env args h).1
  · intro env args
    by_cases h : args.length < 2 ∨ args.getD 1 "" = ""
    · rw [V2.progMain_usage_v2 env args h]
    · rw [(V2.progMain_fields env args h).2.2.1]
      exact (V2.run_fixed _ _ _).2.1

end Memegen

